import Mathlib

/-!
Verification development for the idempotent inbound-event processing core of
the payments service (`services/payments/app/webhooks.py` and
`services/payments/app/stripe_client.py`).

The embedding models:
 * the deterministic idempotency-key generator `generate_idempotency_key`
   (SHA-256 over a `"|"`-joined fingerprint);
 * the webhook ledger (`webhook_events`), the side-effect tables
   (`payments`, `payment_intents`), the Redis lock store, and the
   `stripe_webhook` orchestrator with its single-transaction semantics
   (`with conn` commits all writes at block exit, or rolls all of them back
   when an exception escapes the block).

Database tables are association lists keyed by their unique key column;
`INSERT ... ON CONFLICT (k) DO NOTHING` is the insert-if-absent `insertKV`;
the `UPDATE ... SET status='processed', processed_at=NOW()` is `setProcessed`.
Errors raised by the database client are modelled by fault-injection flags
(`Faults`); the signature verifier `stripe.Webhook.construct_event` is an
external collaborator whose outcome for a delivery is carried in the
`Delivery.verify` field.
-/

namespace Spartan

/-- One tick of wall-clock time as observed through SQL `NOW()`. -/
abbrev Time := Nat

/-! ## Association-list stores (unique-keyed SQL tables) -/

/-- Table lookup: `SELECT ... WHERE key = k` on a table keyed by a unique string column. -/
def lookupKV {α : Type} : List (String × α) → String → Option α
  | [], _ => none
  | (k', v) :: t, k => if k' = k then some v else lookupKV t k

/-- Idempotent insert, `INSERT ... ON CONFLICT (key) DO NOTHING`: a total
operation that never errors and leaves the table unchanged when the key is
already present. -/
def insertKV {α : Type} (l : List (String × α)) (k : String) (v : α) :
    List (String × α) :=
  if (lookupKV l k).isSome then l else l ++ [(k, v)]

/-- The key column of a table. -/
def keysOf {α : Type} (l : List (String × α)) : List String :=
  l.map Prod.fst

theorem lookupKV_append_of_some {α : Type} {l : List (String × α)} {k : String}
    {v : α} (l' : List (String × α)) (h : lookupKV l k = some v) :
    lookupKV (l ++ l') k = some v := by
  induction l with
  | nil => simp [lookupKV] at h
  | cons p t ih =>
    obtain ⟨k', w⟩ := p
    by_cases hk : k' = k
    · simp [lookupKV, hk] at h ⊢; exact h
    · simp [lookupKV, hk] at h ⊢; exact ih h

theorem lookupKV_insert_of_some {α : Type} {l : List (String × α)} {k : String}
    {v : α} (k' : String) (v' : α) (h : lookupKV l k = some v) :
    lookupKV (insertKV l k' v') k = some v := by
  unfold insertKV
  by_cases hs : (lookupKV l k').isSome
  · simp [hs]; exact h
  · simp [hs]; exact lookupKV_append_of_some _ h

theorem lookupKV_append_singleton_of_none {α : Type} {l : List (String × α)}
    {k : String} (v : α) (h : lookupKV l k = none) :
    lookupKV (l ++ [(k, v)]) k = some v := by
  induction l with
  | nil => simp [lookupKV]
  | cons p t ih =>
    obtain ⟨k', w⟩ := p
    by_cases hk : k' = k
    · simp [lookupKV, hk] at h
    · simp [lookupKV, hk] at h ⊢
      exact ih h

theorem lookupKV_insert_isSome {α : Type} (l : List (String × α)) (k : String)
    (v : α) : (lookupKV (insertKV l k v) k).isSome := by
  unfold insertKV
  by_cases hs : (lookupKV l k).isSome
  · simp [hs]
  · simp [hs]
    rw [lookupKV_append_singleton_of_none v (Option.not_isSome_iff_eq_none.mp hs)]
    rfl

theorem insertKV_of_isSome {α : Type} {l : List (String × α)} {k : String}
    (v : α) (h : (lookupKV l k).isSome) : insertKV l k v = l := by
  simp [insertKV, h]

theorem not_mem_keysOf_of_lookup_none {α : Type} {l : List (String × α)}
    {k : String} (h : lookupKV l k = none) : k ∉ keysOf l := by
  induction l with
  | nil => simp [keysOf]
  | cons p t ih =>
    obtain ⟨k', w⟩ := p
    by_cases hk : k' = k
    · simp [lookupKV, hk] at h
    · simp [lookupKV, hk] at h
      simp [keysOf] at ih ⊢
      exact ⟨fun he => hk he.symm, ih h⟩

theorem keysOf_insertKV_nodup {α : Type} {l : List (String × α)} (k : String)
    (v : α) (h : (keysOf l).Nodup) : (keysOf (insertKV l k v)).Nodup := by
  unfold insertKV
  by_cases hs : (lookupKV l k).isSome
  · simp [hs]; exact h
  · simp [hs]
    have hk : k ∉ keysOf l :=
      not_mem_keysOf_of_lookup_none (Option.not_isSome_iff_eq_none.mp hs)
    simp [keysOf] at h hk ⊢
    exact List.Nodup.append h (List.nodup_singleton k)
      (by simpa [List.disjoint_singleton] using hk)

/-! ## Data model (§3 of the design): ledger rows and side-effect rows -/

/-- The `status` column of `webhook_events`; only the strings `'processing'`
and `'processed'` are ever written by the handler. -/
inductive Status : Type
  | processing : Status
  | processed : Status
deriving DecidableEq, Repr

/-- One `webhook_events` ledger row (minus the `event_id` key, which is the
association-list key). -/
structure LedgerRow : Type where
  event_type : String
  payload_hash : String
  status : Status
  received_at : Time
  processed_at : Option Time
deriving DecidableEq, Repr

/-- One `payments` side-effect row, keyed by Stripe checkout-session id. -/
structure PaymentRow : Type where
  customer_email : Option String
  amount : Option Int
  currency : Option String
  status : String
  created_at : Time
deriving DecidableEq, Repr

/-- One `payment_intents` side-effect row, keyed by payment-intent id. -/
structure IntentRow : Type where
  amount : Option Int
  currency : Option String
  status : String
  created_at : Time
deriving DecidableEq, Repr

/-- The durable Postgres state touched by the webhook handler. -/
structure DB : Type where
  webhook_events : List (String × LedgerRow)
  payments : List (String × PaymentRow)
  payment_intents : List (String × IntentRow)
deriving DecidableEq, Repr

/-- Finalization, `UPDATE webhook_events SET status='processed',
processed_at=NOW() WHERE event_id = k`: rewrites only the `status` and `processed_at` columns of
every row whose key matches. -/
def setProcessed : List (String × LedgerRow) → String → Time →
    List (String × LedgerRow)
  | [], _, _ => []
  | (k', r) :: t, k, now =>
    if k' = k then
      (k', { r with status := Status.processed, processed_at := some now }) ::
        setProcessed t k now
    else (k', r) :: setProcessed t k now

theorem keysOf_setProcessed (l : List (String × LedgerRow)) (k : String)
    (now : Time) : keysOf (setProcessed l k now) = keysOf l := by
  induction l with
  | nil => rfl
  | cons p t ih =>
    obtain ⟨k', w⟩ := p
    by_cases hk : k' = k <;> simp [setProcessed, keysOf, hk] at ih ⊢ <;> exact ih

theorem lookupKV_setProcessed_self {l : List (String × LedgerRow)} {k : String}
    {r : LedgerRow} (now : Time) (h : lookupKV l k = some r) :
    lookupKV (setProcessed l k now) k =
      some { r with status := Status.processed, processed_at := some now } := by
  induction l with
  | nil => simp [lookupKV] at h
  | cons p t ih =>
    obtain ⟨k', w⟩ := p
    by_cases hk : k' = k
    · simp [lookupKV, hk] at h
      simp [setProcessed, lookupKV, hk, h]
    · simp [lookupKV, hk] at h
      simp [setProcessed, lookupKV, hk]
      exact ih h

theorem lookupKV_setProcessed_ne {l : List (String × LedgerRow)}
    {k k' : String} (now : Time) (h : k' ≠ k) :
    lookupKV (setProcessed l k now) k' = lookupKV l k' := by
  induction l with
  | nil => rfl
  | cons p t ih =>
    obtain ⟨k'', w⟩ := p
    by_cases hk : k'' = k
    · have hne : k'' ≠ k' := fun he => h (he ▸ hk)
      simp [setProcessed, lookupKV, hk, hne, Ne.symm h]
      exact ih
    · by_cases hk' : k'' = k'
      · simp [setProcessed, lookupKV, hk, hk', h]
      · simp [setProcessed, lookupKV, hk, hk']
        exact ih

/-! ## SHA-256 (`hashlib.sha256(...).hexdigest()`)

A byte-level embedding of FIPS 180-4 SHA-256 over `List Nat` messages, with
32-bit words represented as `Nat` reduced modulo `2^32`. -/

/-- The word modulus `2^32`. -/
def w32 : Nat := 4294967296

/-- Reduce to a 32-bit word. -/
def wmod (n : Nat) : Nat := n % w32

/-- Right-rotation of a 32-bit word. -/
def rotr (x n : Nat) : Nat := wmod ((x >>> n) ||| (x <<< (32 - n)))

/-- Bitwise complement of a 32-bit word. -/
def wnot (x : Nat) : Nat := x ^^^ 4294967295

/-- The eight 32-bit working variables of the compression function. -/
structure Hash8 : Type where
  a : Nat
  b : Nat
  c : Nat
  d : Nat
  e : Nat
  f : Nat
  g : Nat
  h : Nat
deriving DecidableEq, Repr

/-- SHA-256 initial hash value `H(0)` (decimal rendering of the standard
words). -/
def sha256init : Hash8 :=
  ⟨1779033703, 3144134277, 1013904242, 2773480762,
   1359893119, 2600822924, 528734635, 1541459225⟩

/-- The 64 SHA-256 round constants `K` (decimal rendering of the standard
words). -/
def sha256K : List Nat :=
  [1116352408, 1899447441, 3049323471, 3921009573, 961987163,
   1508970993, 2453635748, 2870763221, 3624381080, 310598401,
   607225278, 1426881987, 1925078388, 2162078206, 2614888103,
   3248222580, 3835390401, 4022224774, 264347078, 604807628,
   770255983, 1249150122, 1555081692, 1996064986, 2554220882,
   2821834349, 2952996808, 3210313671, 3336571891, 3584528711,
   113926993, 338241895, 666307205, 773529912, 1294757372,
   1396182291, 1695183700, 1986661051, 2177026350, 2456956037,
   2730485921, 2820302411, 3259730800, 3345764771, 3516065817,
   3600352804, 4094571909, 275423344, 430227734, 506948616,
   659060556, 883997877, 958139571, 1322822218, 1537002063,
   1747873779, 1955562222, 2024104815, 2227730452, 2361852424,
   2428436474, 2756734187, 3204031479, 3329325298]

/-- Big-endian 8-byte encoding (of the message bit length). -/
def be8 (n : Nat) : List Nat :=
  [n / 2 ^ 56 % 256, n / 2 ^ 48 % 256, n / 2 ^ 40 % 256, n / 2 ^ 32 % 256,
   n / 2 ^ 24 % 256, n / 2 ^ 16 % 256, n / 2 ^ 8 % 256, n % 256]

/-- Big-endian 4-byte encoding of a 32-bit word. -/
def be4 (n : Nat) : List Nat :=
  [n / 2 ^ 24 % 256, n / 2 ^ 16 % 256, n / 2 ^ 8 % 256, n % 256]

/-- SHA-256 message padding: `0x80`, zeros to 56 mod 64, then the bit length
as 8 big-endian bytes. -/
def padMsg (msg : List Nat) : List Nat :=
  let z := (119 - msg.length % 64) % 64
  msg ++ [128] ++ List.replicate z 0 ++ be8 (8 * msg.length)

/-- The 64-byte message blocks of a padded message. -/
def msgBlocks (padded : List Nat) : List (List Nat) :=
  (List.range (padded.length / 64)).map fun i => (padded.drop (64 * i)).take 64

/-- The big-endian 32-bit word starting at byte offset `j` of a block. -/
def wordAt (block : List Nat) (j : Nat) : Nat :=
  block.getD j 0 * 2 ^ 24 + block.getD (j + 1) 0 * 2 ^ 16 +
    block.getD (j + 2) 0 * 2 ^ 8 + block.getD (j + 3) 0

/-- Schedule function `σ0(x) = ROTR7(x) XOR ROTR18(x) XOR SHR3(x)`. -/
def smallSigma0 (x : Nat) : Nat := rotr x 7 ^^^ rotr x 18 ^^^ (x >>> 3)

/-- Schedule function `σ1(x) = ROTR17(x) XOR ROTR19(x) XOR SHR10(x)`. -/
def smallSigma1 (x : Nat) : Nat := rotr x 17 ^^^ rotr x 19 ^^^ (x >>> 10)

/-- Round function `Σ0(x)` on the working variable `a`. -/
def bigSigma0 (x : Nat) : Nat := rotr x 2 ^^^ rotr x 13 ^^^ rotr x 22

/-- Round function `Σ1(x)` on the working variable `e`. -/
def bigSigma1 (x : Nat) : Nat := rotr x 6 ^^^ rotr x 11 ^^^ rotr x 25

/-- Extend the 16 block words with one more scheduled word. -/
def nextWord (ws : List Nat) : Nat :=
  let t := ws.length
  wmod (smallSigma1 (ws.getD (t - 2) 0) + ws.getD (t - 7) 0 +
    smallSigma0 (ws.getD (t - 15) 0) + ws.getD (t - 16) 0)

/-- The 64-word message schedule of one block. -/
def schedule (block : List Nat) : List Nat :=
  (List.range 48).foldl (fun ws _ => ws ++ [nextWord ws])
    ((List.range 16).map fun j => wordAt block (4 * j))

/-- One round of the SHA-256 compression function, consuming a round
constant paired with a scheduled word. -/
def compressStep (st : Hash8) (kw : Nat × Nat) : Hash8 :=
  let t1 := wmod (st.h + bigSigma1 st.e +
    ((st.e &&& st.f) ^^^ (wnot st.e &&& st.g)) + kw.1 + kw.2)
  let t2 := wmod (bigSigma0 st.a +
    ((st.a &&& st.b) ^^^ (st.a &&& st.c) ^^^ (st.b &&& st.c)))
  ⟨wmod (t1 + t2), st.a, st.b, st.c, wmod (st.d + t1), st.e, st.f, st.g⟩

/-- Compress one 64-byte block into the running hash value. -/
def compressBlock (st : Hash8) (block : List Nat) : Hash8 :=
  let u := (sha256K.zip (schedule block)).foldl compressStep st
  ⟨wmod (st.a + u.a), wmod (st.b + u.b), wmod (st.c + u.c), wmod (st.d + u.d),
   wmod (st.e + u.e), wmod (st.f + u.f), wmod (st.g + u.g), wmod (st.h + u.h)⟩

/-- The eight 32-bit words of the SHA-256 digest of a byte string. -/
def sha256words (msg : List Nat) : Hash8 :=
  (msgBlocks (padMsg msg)).foldl compressBlock sha256init

/-- The 32 digest bytes. -/
def sha256digest (msg : List Nat) : List Nat :=
  let hw := sha256words msg
  be4 hw.a ++ be4 hw.b ++ be4 hw.c ++ be4 hw.d ++
    be4 hw.e ++ be4 hw.f ++ be4 hw.g ++ be4 hw.h

/-- One lowercase hexadecimal digit (defined on `n < 16`). -/
def hexDigit (n : Nat) : Char :=
  if n < 10 then Char.ofNat (48 + n) else Char.ofNat (87 + n)

/-- The two hex characters of one byte, high nibble first. -/
def byteHexChars (b : Nat) : List Char :=
  [hexDigit (b / 16 % 16), hexDigit (b % 16)]

/-- Lowercase hex rendering of a byte string (Python's `hexdigest`). -/
def bytesToHex (bs : List Nat) : String :=
  String.mk ((bs.map byteHexChars).flatten)

/-- Hex digest `hashlib.sha256(raw).hexdigest()`, which is also the
handler's `_payload_hash`. -/
def sha256hex (msg : List Nat) : String :=
  bytesToHex (sha256digest msg)

/-- UTF-8 bytes of a string (`.encode("utf-8")`). -/
def strBytes (s : String) : List Nat :=
  s.toUTF8.toList.map UInt8.toNat

/-! ## Outbound idempotency keys (`services/payments/app/stripe_client.py`) -/

/-- Python's `"|".join(items)` for a nonempty item list. -/
def joinBar : List String → String
  | [] => ""
  | [s] => s
  | s :: t => s ++ "|" ++ joinBar t

/-- The pre-hash fingerprint `"|".join([purpose, *parts])` of
`generate_idempotency_key`. -/
def encodeKey (purpose : String) (parts : List String) : String :=
  joinBar (purpose :: parts)

/-- The generator `generate_idempotency_key(purpose, *parts)`: the SHA-256
hex digest of
the UTF-8 bytes of the `"|"`-joined fingerprint.  (The Python source applies
`str(p)` to each variadic part; here the parts arrive already rendered as
strings.) -/
def generate_idempotency_key (purpose : String) (parts : List String) :
    String :=
  sha256hex (strBytes (encodeKey purpose parts))

/-! ## Events, faults, dispatcher, transaction, orchestrator
(`services/payments/app/webhooks.py`) -/

/-- The `event["data"]["object"]` of a verified Stripe event, with the fields
the handler reads: for a checkout session `id`, `customer_details.email`,
`amount_total`, `currency`; for a payment intent `id`, `amount_received`,
`currency`.  `other` covers payloads of any other shape. -/
inductive EventObject : Type
  | session (id : String) (customer_email : Option String)
      (amount_total : Option Int) (currency : Option String) : EventObject
  | intent (id : String) (amount_received : Option Int)
      (currency : Option String) : EventObject
  | other : EventObject
deriving DecidableEq, Repr

/-- A verified event as returned by `stripe.Webhook.construct_event`:
`event.get("id", "")`, `event.get("type", "")` and the data object. -/
structure Event : Type where
  id : String
  type : String
  obj : EventObject
deriving DecidableEq, Repr

/-- Fault injection for the four database statements executed inside the
transaction, in program order: the `SELECT status`, the ledger
`INSERT ... ON CONFLICT DO NOTHING`, the side-effect insert, and the
finalizing `UPDATE`.  A `true` flag means the corresponding statement raises
(e.g. the connection drops) when — and only when — control reaches it. -/
structure Faults : Type where
  failSelect : Bool
  failInsert : Bool
  failDispatch : Bool
  failUpdate : Bool
deriving DecidableEq, Repr

/-- No injected faults: every statement that runs succeeds. -/
def Faults.none : Faults := ⟨false, false, false, false⟩

/-- The side-effect dispatch (the `if event_type == ...` chain): an
idempotent insert keyed by the business identifier embedded in the payload.
Returns `Option.none` when the payload object lacks the shape the branch
subscripts into (a `KeyError` in the source, which aborts the transaction);
unknown event types are accepted and produce no effect. -/
def dispatch (e : Event) (now : Time) (db : DB) : Option DB :=
  if e.type = "checkout.session.completed" then
    match e.obj with
    | EventObject.session sid email amt cur =>
      let row : PaymentRow := { customer_email := email, amount := amt,
                                currency := cur, status := "succeeded",
                                created_at := now }
      some { db with payments := insertKV db.payments sid row }
    | _ => Option.none
  else if e.type = "payment_intent.succeeded" then
    match e.obj with
    | EventObject.intent pid amt cur =>
      let row : IntentRow := { amount := amt, currency := cur,
                               status := "succeeded", created_at := now }
      some { db with payment_intents := insertKV db.payment_intents pid row }
    | _ => Option.none
  else some db

/-- The ledger `INSERT ... VALUES (..., 'processing', NOW())
ON CONFLICT (event_id) DO NOTHING`. -/
def markProcessing (e : Event) (body_hash : String) (now : Time) (db : DB) :
    DB :=
  let row : LedgerRow := ⟨e.type, body_hash, Status.processing, now, Option.none⟩
  { db with webhook_events := insertKV db.webhook_events e.id row }

/-- The finalizing `UPDATE webhook_events SET status='processed',
processed_at=NOW() WHERE event_id=...`. -/
def finalizeProcessed (e : Event) (now : Time) (db : DB) : DB :=
  { db with webhook_events := setProcessed db.webhook_events e.id now }

/-- The transaction writes that run when the ledger status check did not
short-circuit: idempotent `processing` insert, side-effect dispatch, and the
finalizing `UPDATE` to `processed`. -/
def runTxnAfterCheck (e : Event) (body_hash : String) (now : Time)
    (f : Faults) (db : DB) : Except Unit DB :=
  if f.failInsert then Except.error () else
  let db1 := markProcessing e body_hash now db
  if f.failDispatch then Except.error () else
  match dispatch e now db1 with
  | Option.none => Except.error ()
  | some db2 =>
    if f.failUpdate then Except.error () else
    Except.ok (finalizeProcessed e now db2)

/-- The body of `with _pg() as conn: with conn.cursor() as cur:` — one
Postgres transaction.  `Except.ok db'` is the committed database at block
exit; `Except.error ()` is an exception escaping the block, in which case
psycopg2 rolls the whole transaction back and re-raises.  The four statements
run in program order: status lookup (with the already-`processed`
short-circuit), idempotent ledger insert, side-effect dispatch, and the
`processing → processed` finalization. -/
def runTxn (e : Event) (body_hash : String) (now : Time) (f : Faults)
    (db : DB) : Except Unit DB :=
  if f.failSelect then Except.error () else
  match lookupKV db.webhook_events e.id with
  | some row =>
    if row.status = Status.processed then Except.ok db
    else runTxnAfterCheck e body_hash now f db
  | Option.none => runTxnAfterCheck e body_hash now f db

/-- The acknowledgement observed by the transport: HTTP 200, the explicit
`HTTPException(status_code=400)` for a bad signature, or an unhandled
exception propagating out of the handler (which FastAPI surfaces as a
retryable 5xx failure). -/
inductive HttpResult : Type
  | ok : HttpResult
  | badRequest : HttpResult
  | serverError : HttpResult
deriving DecidableEq, Repr

/-- The shared mutable world: the Redis lock keys currently set, and the
Postgres database. -/
structure WorldState : Type where
  locks : List String
  db : DB
deriving DecidableEq, Repr

/-- One inbound delivery: the raw body bytes, the `stripe-signature` header
(absent or its string value), the outcome the black-box verifier
`stripe.Webhook.construct_event` produces for this delivery, the SQL `NOW()`
timestamp, and the injected statement faults. -/
structure Delivery : Type where
  raw : List Nat
  sig_header : Option String
  verify : Except Unit Event
  now : Time
  faults : Faults

/-- The Redis key `f"lock:stripe:{event_id}"`. -/
def lockKey (event_id : String) : String := "lock:stripe:" ++ event_id

/-- Lock acquisition `_acquire_lock`: `SET key 1 NX EX ttl` — succeeds iff
the key is absent. -/
def acquireLock (locks : List String) (event_id : String) : Bool :=
  decide (lockKey event_id ∉ locks)

/-- Lock release `_release_lock`: `DEL key` — removes the key from the lock
store. -/
def releaseLock (locks : List String) (event_id : String) : List String :=
  locks.filter fun k => k ≠ lockKey event_id

/-- The `stripe_webhook` handler, `services/payments/app/webhooks.py`:
header/secret guard, signature verification, lock acquisition, then the
ledger transaction under `try/finally _release_lock`.  An exception from the
transaction is rolled back, the lock is still released, and the exception
propagates as `HttpResult.serverError`. -/
def stripe_webhook (secret : String) (d : Delivery) (w : WorldState) :
    HttpResult × WorldState :=
  if d.sig_header = Option.none ∨ d.sig_header = some "" ∨ secret = "" then
    (HttpResult.ok, w)
  else
    match d.verify with
    | Except.error _ => (HttpResult.badRequest, w)
    | Except.ok event =>
      let body_hash := sha256hex d.raw
      if acquireLock w.locks event.id then
        let locks1 := lockKey event.id :: w.locks
        match runTxn event body_hash d.now d.faults w.db with
        | Except.ok db' =>
          (HttpResult.ok, { locks := releaseLock locks1 event.id, db := db' })
        | Except.error _ =>
          (HttpResult.serverError,
            { locks := releaseLock locks1 event.id, db := w.db })
      else (HttpResult.ok, w)

/-- A sequence of deliveries handled one after the other (the at-least-once
transport redelivering). -/
def processDeliveries (secret : String) (ds : List Delivery)
    (w : WorldState) : WorldState :=
  ds.foldl (fun w' d => (stripe_webhook secret d w').2) w

/-- The side effect demanded by an event is durably recorded: for a
`checkout.session.completed` event a `payments` row under its session id, for
a `payment_intent.succeeded` event a `payment_intents` row under its intent
id, and nothing for any other event type. -/
def effectApplied (e : Event) (db : DB) : Prop :=
  (∀ sid em am cu, e.type = "checkout.session.completed" →
    e.obj = EventObject.session sid em am cu →
    (lookupKV db.payments sid).isSome) ∧
  (∀ pid am cu, e.type = "payment_intent.succeeded" →
    e.obj = EventObject.intent pid am cu →
    (lookupKV db.payment_intents pid).isSome)

/-! ## Concrete instances (used by the witness theorems) -/

/-- The checkout event of the end-to-end example in §8 of the design. -/
def evC : Event :=
  ⟨"evt_123", "checkout.session.completed",
    EventObject.session "cs_test_123" (some "a@b.example") (some 1000)
      (some "usd")⟩

/-- A ledger row already finalized for `evt_123`. -/
def rowDone : LedgerRow :=
  ⟨"checkout.session.completed", "aa11", Status.processed, 5, some 6⟩

/-- A world whose ledger already holds `evt_123` as `processed`. -/
def wDone : WorldState := ⟨[], ⟨[("evt_123", rowDone)], [], []⟩⟩

/-- An empty world: no locks, empty tables. -/
def wEmpty : WorldState := ⟨[], ⟨[], [], []⟩⟩

/-- A clean delivery of `evC`: signed header, verifier succeeds, no faults. -/
def dOk : Delivery := ⟨[1, 2], some "t=1,v1=aa", Except.ok evC, 7, Faults.none⟩

/-- A delivery whose signature verification fails. -/
def dBad : Delivery := ⟨[1, 2], some "t=1,v1=zz", Except.error (), 7, Faults.none⟩

/-- A delivery of `evC` whose `SELECT` statement raises. -/
def dFault : Delivery :=
  ⟨[1, 2], some "t=1,v1=aa", Except.ok evC, 7, ⟨true, false, false, false⟩⟩

/-- A delivery with no `stripe-signature` header at all. -/
def dNoHeader : Delivery := ⟨[1, 2], Option.none, Except.ok evC, 7, Faults.none⟩

/-! ## Supporting lemmas about locks, the dispatcher and the transaction -/

theorem releaseLock_cons_self (ls : List String) (eid : String) :
    releaseLock (lockKey eid :: ls) eid = releaseLock ls eid := by
  simp [releaseLock]

theorem releaseLock_of_not_mem {ls : List String} {eid : String}
    (h : lockKey eid ∉ ls) : releaseLock ls eid = ls := by
  unfold releaseLock
  rw [List.filter_eq_self]
  intro a ha
  have hne : a ≠ lockKey eid := fun he => h (he ▸ ha)
  simpa using hne

theorem dispatch_webhook_events {e : Event} {now : Time} {db db' : DB}
    (h : dispatch e now db = some db') :
    db'.webhook_events = db.webhook_events := by
  unfold dispatch at h
  by_cases h1 : e.type = "checkout.session.completed"
  · rw [if_pos h1] at h
    cases ho : e.obj <;> rw [ho] at h <;> simp at h
    subst h
    rfl
  · rw [if_neg h1] at h
    by_cases h2 : e.type = "payment_intent.succeeded"
    · rw [if_pos h2] at h
      cases ho : e.obj <;> rw [ho] at h <;> simp at h
      subst h
      rfl
    · rw [if_neg h2] at h
      simp at h
      subst h
      rfl

theorem dispatch_effect {e : Event} {now : Time} {db db' : DB}
    (h : dispatch e now db = some db') : effectApplied e db' := by
  constructor
  · intro sid em am cu h1 ho
    unfold dispatch at h
    rw [if_pos h1, ho] at h
    simp at h
    subst h
    exact lookupKV_insert_isSome _ _ _
  · intro pid am cu h2 ho
    have h1 : e.type ≠ "checkout.session.completed" := by
      rw [h2]; decide
    unfold dispatch at h
    rw [if_neg h1, if_pos h2, ho] at h
    simp at h
    subst h
    exact lookupKV_insert_isSome _ _ _

theorem effectApplied_finalize {e : Event} {now : Time} {db : DB}
    (h : effectApplied e db) : effectApplied e (finalizeProcessed e now db) := by
  obtain ⟨h1, h2⟩ := h
  exact ⟨h1, h2⟩

theorem runTxnAfterCheck_ok_inv {e : Event} {bh : String} {now : Time}
    {f : Faults} {db db' : DB}
    (h : runTxnAfterCheck e bh now f db = Except.ok db') :
    ∃ db2, dispatch e now (markProcessing e bh now db) = some db2 ∧
      db' = finalizeProcessed e now db2 := by
  unfold runTxnAfterCheck at h
  by_cases hi : f.failInsert
  · simp [hi] at h
  · rw [if_neg hi] at h
    by_cases hd : f.failDispatch
    · simp [hd] at h
    · rw [if_neg hd] at h
      cases hm : dispatch e now (markProcessing e bh now db) with
      | none =>
        rw [hm] at h
        simp at h
      | some db2 =>
        rw [hm] at h
        simp at h
        by_cases hu : f.failUpdate
        · simp [hu] at h
        · rw [if_neg hu] at h
          simp at h
          exact ⟨db2, rfl, h.symm⟩

theorem runTxn_ok_inv {e : Event} {bh : String} {now : Time} {f : Faults}
    {db db' : DB} (h : runTxn e bh now f db = Except.ok db') :
    db' = db ∨
      ∃ db2, dispatch e now (markProcessing e bh now db) = some db2 ∧
        db' = finalizeProcessed e now db2 := by
  unfold runTxn at h
  split at h
  · cases h
  · split at h
    · split at h
      · cases h
        exact Or.inl rfl
      · exact Or.inr (runTxnAfterCheck_ok_inv h)
    · exact Or.inr (runTxnAfterCheck_ok_inv h)

theorem runTxn_shortcircuit {e : Event} {f : Faults} {db : DB}
    {row : LedgerRow} (bh : String) (now : Time)
    (hrow : lookupKV db.webhook_events e.id = some row)
    (hp : row.status = Status.processed) (hs : f.failSelect = false) :
    runTxn e bh now f db = Except.ok db := by
  unfold runTxn
  rw [hs]
  simp [hrow, hp]

theorem strAppend_right_cancel {a b c : String} (h : a ++ c = b ++ c) :
    a = b := by
  apply String.ext
  have h2 := congrArg String.data h
  simp only [String.data_append] at h2
  exact List.append_cancel_right h2

theorem strAppend_left_cancel {a b c : String} (h : a ++ b = a ++ c) :
    b = c := by
  apply String.ext
  have h2 := congrArg String.data h
  simp only [String.data_append] at h2
  exact List.append_cancel_left h2

theorem joinBar_cons_cons (s a : String) (t : List String) :
    joinBar (s :: a :: t) = s ++ "|" ++ joinBar (a :: t) := rfl

theorem joinBar_cons_of_ne_nil (s : String) {t : List String} (ht : t ≠ []) :
    joinBar (s :: t) = s ++ "|" ++ joinBar t := by
  cases t with
  | nil => exact absurd rfl ht
  | cons b t' => rfl

/-- Changing the value at one position of the joined list changes the join:
the `"|"`-separated fingerprint is injective under single-entry updates. -/
theorem joinBar_set_ne (l : List String) (i : Nat) (x : String)
    (h : i < l.length) (hx : x ≠ l.get ⟨i, h⟩) :
    joinBar (l.set i x) ≠ joinBar l := by
  induction l generalizing i with
  | nil => simp at h
  | cons a t ih =>
    cases i with
    | zero =>
      cases t with
      | nil =>
        simp [joinBar, List.set]
        exact fun he => hx (by simpa using he)
      | cons b t' =>
        simp only [List.set, joinBar_cons_cons]
        intro he
        rw [String.append_assoc, String.append_assoc] at he
        exact hx (by simpa using strAppend_right_cancel he)
    | succ j =>
      have hj : j < t.length := by simpa using h
      cases t with
      | nil => simp at hj
      | cons b t' =>
        simp only [List.set]
        intro he
        have hne : (b :: t').set j x ≠ [] := by
          intro hh
          have hlen := congrArg List.length hh
          simp at hlen
        rw [joinBar_cons_of_ne_nil a hne,
          joinBar_cons_of_ne_nil a (List.cons_ne_nil b t'),
          String.append_assoc, String.append_assoc] at he
        have he2 := strAppend_left_cancel he
        have he3 := strAppend_left_cancel he2
        exact ih j hj (by simpa using hx) he3

/-- Is `c` a lowercase hexadecimal digit? -/
def isHexChar (c : Char) : Bool :=
  decide (c ∈ "0123456789abcdef".toList)

theorem hexDigit_isHex {n : Nat} (h : n < 16) : isHexChar (hexDigit n) = true := by
  interval_cases n <;> decide

theorem flattenHex_length (bs : List Nat) :
    ((bs.map byteHexChars).flatten).length = 2 * bs.length := by
  induction bs with
  | nil => rfl
  | cons b t ih =>
    simp only [List.map_cons, List.flatten_cons, List.length_append, ih,
      byteHexChars, List.length_cons, List.length_nil]
    omega

theorem bytesToHex_length (bs : List Nat) :
    (bytesToHex bs).length = 2 * bs.length :=
  flattenHex_length bs

theorem bytesToHex_all_hex (bs : List Nat) :
    (bytesToHex bs).toList.all isHexChar = true := by
  unfold bytesToHex
  rw [List.all_eq_true]
  intro c hc
  have hc2 : c ∈ (bs.map byteHexChars).flatten := hc
  rw [List.mem_flatten] at hc2
  obtain ⟨chs, hchs, hcm⟩ := hc2
  rw [List.mem_map] at hchs
  obtain ⟨b, _, hb⟩ := hchs
  rw [← hb] at hcm
  simp only [byteHexChars, List.mem_cons, List.not_mem_nil, or_false] at hcm
  rcases hcm with hcm | hcm <;> rw [hcm]
  · exact hexDigit_isHex (Nat.mod_lt _ (by omega))
  · exact hexDigit_isHex (Nat.mod_lt _ (by omega))

theorem sha256digest_length (msg : List Nat) :
    (sha256digest msg).length = 32 := by
  simp [sha256digest, be4]

theorem sha256hex_length (msg : List Nat) : (sha256hex msg).length = 64 := by
  unfold sha256hex
  rw [bytesToHex_length, sha256digest_length]

theorem stripe_webhook_verified {secret : String} {d : Delivery}
    {e : Event} (w : WorldState)
    (hcond : ¬(d.sig_header = Option.none ∨ d.sig_header = some "" ∨
      secret = ""))
    (hv : d.verify = Except.ok e) :
    stripe_webhook secret d w =
      if acquireLock w.locks e.id then
        match runTxn e (sha256hex d.raw) d.now d.faults w.db with
        | Except.ok db' =>
          (HttpResult.ok,
            ⟨releaseLock (lockKey e.id :: w.locks) e.id, db'⟩)
        | Except.error _ =>
          (HttpResult.serverError,
            ⟨releaseLock (lockKey e.id :: w.locks) e.id, w.db⟩)
      else (HttpResult.ok, w) := by
  unfold stripe_webhook
  rw [if_neg hcond, hv]

theorem stripe_webhook_error {secret : String} {d : Delivery} {u : Unit}
    (w : WorldState)
    (hcond : ¬(d.sig_header = Option.none ∨ d.sig_header = some "" ∨
      secret = ""))
    (hv : d.verify = Except.error u) :
    stripe_webhook secret d w = (HttpResult.badRequest, w) := by
  unfold stripe_webhook
  rw [if_neg hcond, hv]

/-- Every run of the handler either leaves the database untouched, or commits
exactly the three-step transaction image: `processing` insert, dispatch, and
finalization, computed from the verified event. -/
theorem stripe_webhook_db_cases (secret : String) (d : Delivery)
    (w : WorldState) :
    (stripe_webhook secret d w).2.db = w.db ∨
      ∃ e db2, d.verify = Except.ok e ∧
        dispatch e d.now (markProcessing e (sha256hex d.raw) d.now w.db) =
          some db2 ∧
        (stripe_webhook secret d w).2.db = finalizeProcessed e d.now db2 := by
  by_cases hcond : d.sig_header = Option.none ∨ d.sig_header = some "" ∨
    secret = ""
  · left
    unfold stripe_webhook
    rw [if_pos hcond]
  · cases hv : d.verify with
    | error u =>
      left
      rw [stripe_webhook_error w hcond hv]
    | ok e =>
      rw [stripe_webhook_verified w hcond hv]
      by_cases ha : acquireLock w.locks e.id = true
      · rw [if_pos ha]
        cases htxn : runTxn e (sha256hex d.raw) d.now d.faults w.db with
        | ok db' =>
          rcases runTxn_ok_inv htxn with h1 | ⟨db2, hm, hfin⟩
          · left
            exact h1
          · right
            exact ⟨e, db2, rfl, hm, hfin⟩
        | error u =>
          left
          rfl
      · rw [if_neg ha]
        left
        rfl

/-! # Claim theorems -/

/-- C1: for every inbound delivery whose `event_id` already has a ledger row
with status `processed`, the handler acknowledges success and performs no new
writes — no side-effect dispatch, no ledger insert or update, so the whole
database is unchanged — regardless of the delivery's payload content (`d.raw`,
`e.type`, `e.obj` and the remaining faults are universally quantified).  The
stated hypotheses are that the verifier accepts the delivery and that the
`SELECT` statement itself does not fault. -/
theorem C1_processed_short_circuits_no_writes
    (secret : String) (d : Delivery) (w : WorldState) (e : Event)
    (row : LedgerRow) (hv : d.verify = Except.ok e)
    (hrow : lookupKV w.db.webhook_events e.id = some row)
    (hp : row.status = Status.processed)
    (hf : d.faults.failSelect = false) :
    (stripe_webhook secret d w).1 = HttpResult.ok ∧
      (stripe_webhook secret d w).2.db = w.db := by
  by_cases hcond : d.sig_header = Option.none ∨ d.sig_header = some "" ∨
    secret = ""
  · unfold stripe_webhook
    rw [if_pos hcond]
    exact ⟨rfl, rfl⟩
  · rw [stripe_webhook_verified w hcond hv]
    by_cases ha : acquireLock w.locks e.id = true
    · rw [if_pos ha, runTxn_shortcircuit (sha256hex d.raw) d.now hrow hp hf]
      exact ⟨rfl, rfl⟩
    · rw [if_neg ha]
      exact ⟨rfl, rfl⟩

/-- Witness for C1: a redelivery of `evt_123` into a world that already holds
it as `processed` is acknowledged with 200 and writes nothing. -/
theorem C1_witness :
    (dOk.verify = Except.ok evC ∧
      lookupKV wDone.db.webhook_events evC.id = some rowDone ∧
      rowDone.status = Status.processed ∧
      dOk.faults.failSelect = false) ∧
    ((stripe_webhook "whsec" dOk wDone).1 = HttpResult.ok ∧
      (stripe_webhook "whsec" dOk wDone).2.db = wDone.db) :=
  ⟨⟨rfl, by decide, rfl, rfl⟩,
    C1_processed_short_circuits_no_writes "whsec" dOk wDone evC rowDone rfl
      (by decide) rfl rfl⟩

/-- C2: for every inbound delivery whose signature verification fails (the
black-box verifier raises, covering both an invalid signature and a stale
embedded timestamp), the handler returns the 400 rejection rather than
success, and the whole world — ledger, side-effect tables and locks — is
untouched. -/
theorem C2_verification_failure_rejects_without_writes
    (secret : String) (d : Delivery) (w : WorldState) (u : Unit)
    (hcond : ¬(d.sig_header = Option.none ∨ d.sig_header = some "" ∨
      secret = ""))
    (hv : d.verify = Except.error u) :
    (stripe_webhook secret d w).1 = HttpResult.badRequest ∧
      (stripe_webhook secret d w).1 ≠ HttpResult.ok ∧
      (stripe_webhook secret d w).2 = w := by
  rw [stripe_webhook_error w hcond hv]
  exact ⟨rfl, fun h => HttpResult.noConfusion h, rfl⟩

/-- Witness for C2: a tampered delivery (verifier rejects) against an empty
world gets a 400 and no state change. -/
theorem C2_witness :
    (¬(dBad.sig_header = Option.none ∨ dBad.sig_header = some "" ∨
      ("whsec" : String) = "") ∧ dBad.verify = Except.error ()) ∧
    ((stripe_webhook "whsec" dBad wEmpty).1 = HttpResult.badRequest ∧
      (stripe_webhook "whsec" dBad wEmpty).1 ≠ HttpResult.ok ∧
      (stripe_webhook "whsec" dBad wEmpty).2 = wEmpty) :=
  ⟨⟨by decide, rfl⟩,
    C2_verification_failure_rejects_without_writes "whsec" dBad wEmpty ()
      (by decide) rfl⟩

/-- C3: the side-effect dispatch and the `processing → processed` transition
commit inside one atomic boundary.  If the transaction fails (the handler
surfaces `serverError`), the database is exactly as before — neither the
effect nor the status change is applied; if the handler acknowledges success,
either nothing was written (short-circuit paths) or the committed state has
the ledger row `processed` **and** the event's side effect recorded — never
one without the other. -/
theorem C3_dispatch_and_finalize_atomic
    (secret : String) (d : Delivery) (w : WorldState) (e : Event)
    (hv : d.verify = Except.ok e) :
    ((stripe_webhook secret d w).1 = HttpResult.serverError →
      (stripe_webhook secret d w).2.db = w.db) ∧
    ((stripe_webhook secret d w).1 = HttpResult.ok →
      (stripe_webhook secret d w).2.db = w.db ∨
        ((∃ r, lookupKV (stripe_webhook secret d w).2.db.webhook_events e.id =
            some r ∧ r.status = Status.processed) ∧
          effectApplied e (stripe_webhook secret d w).2.db)) := by
  by_cases hcond : d.sig_header = Option.none ∨ d.sig_header = some "" ∨
    secret = ""
  · unfold stripe_webhook
    rw [if_pos hcond]
    exact ⟨fun h => HttpResult.noConfusion h, fun _ => Or.inl rfl⟩
  · rw [stripe_webhook_verified w hcond hv]
    by_cases ha : acquireLock w.locks e.id = true
    · rw [if_pos ha]
      cases htxn : runTxn e (sha256hex d.raw) d.now d.faults w.db with
      | error u => exact ⟨fun _ => rfl, fun h => HttpResult.noConfusion h⟩
      | ok db' =>
        refine ⟨fun h => HttpResult.noConfusion h, fun _ => ?_⟩
        rcases runTxn_ok_inv htxn with h1 | ⟨db2, hm, hfin⟩
        · exact Or.inl h1
        · subst hfin
          have hwe := dispatch_webhook_events hm
          have hsome : (lookupKV db2.webhook_events e.id).isSome := by
            rw [hwe]
            exact lookupKV_insert_isSome _ _ _
          obtain ⟨r0, hr0⟩ := Option.isSome_iff_exists.mp hsome
          have hfinal := lookupKV_setProcessed_self d.now hr0
          exact Or.inr ⟨⟨_, hfinal, rfl⟩,
            effectApplied_finalize (dispatch_effect hm)⟩
    · rw [if_neg ha]
      exact ⟨fun h => HttpResult.noConfusion h, fun _ => Or.inl rfl⟩

/-- Witness for C3 at the concrete checkout delivery `dOk` on the empty
world. -/
theorem C3_witness :
    dOk.verify = Except.ok evC ∧
    (((stripe_webhook "whsec" dOk wEmpty).1 = HttpResult.serverError →
      (stripe_webhook "whsec" dOk wEmpty).2.db = wEmpty.db) ∧
    ((stripe_webhook "whsec" dOk wEmpty).1 = HttpResult.ok →
      (stripe_webhook "whsec" dOk wEmpty).2.db = wEmpty.db ∨
        ((∃ r, lookupKV
            (stripe_webhook "whsec" dOk wEmpty).2.db.webhook_events evC.id =
            some r ∧ r.status = Status.processed) ∧
          effectApplied evC (stripe_webhook "whsec" dOk wEmpty).2.db))) :=
  ⟨rfl, C3_dispatch_and_finalize_atomic "whsec" dOk wEmpty evC rfl⟩

theorem stripe_webhook_ledger_nodup (secret : String) (d : Delivery)
    (w : WorldState) (h : (keysOf w.db.webhook_events).Nodup) :
    (keysOf (stripe_webhook secret d w).2.db.webhook_events).Nodup := by
  rcases stripe_webhook_db_cases secret d w with hdb | ⟨e, db2, hv, hm, hdb⟩
  · rw [hdb]
    exact h
  · rw [hdb]
    show (keysOf (setProcessed db2.webhook_events e.id d.now)).Nodup
    rw [keysOf_setProcessed, dispatch_webhook_events hm]
    exact keysOf_insertKV_nodup _ _ h

theorem processDeliveries_ledger_nodup (secret : String) (ds : List Delivery) :
    ∀ w : WorldState, (keysOf w.db.webhook_events).Nodup →
      (keysOf (processDeliveries secret ds w).db.webhook_events).Nodup := by
  induction ds with
  | nil => exact fun w h => h
  | cons d t ih =>
    exact fun w h => ih _ (stripe_webhook_ledger_nodup secret d w h)

/-- C4: inserting the `processing` ledger row for an `event_id` that already
has a row is a harmless no-op — the insert is a total operation (it has no
error outcome in the model, mirroring `ON CONFLICT DO NOTHING`) that returns
the table unchanged — and consequently, after any sequence of deliveries
starting from a ledger with unique keys, at most one ledger row exists per
`event_id`. -/
theorem C4_idempotent_insert_unique_rows :
    (∀ (l : List (String × LedgerRow)) (k : String) (v : LedgerRow),
      (lookupKV l k).isSome → insertKV l k v = l) ∧
    (∀ (secret : String) (ds : List Delivery) (w : WorldState),
      (keysOf w.db.webhook_events).Nodup →
      (keysOf (processDeliveries secret ds w).db.webhook_events).Nodup) :=
  ⟨fun _ _ v h => insertKV_of_isSome v h,
    fun secret ds w h => processDeliveries_ledger_nodup secret ds w h⟩

/-- Witness for C4: re-inserting `evt_123` leaves the one-row ledger exactly
as it was, and a delivery sequence starting from the empty ledger keeps the
key column duplicate-free. -/
theorem C4_witness :
    insertKV [("evt_123", rowDone)] "evt_123" rowDone =
      [("evt_123", rowDone)] ∧
    (keysOf (processDeliveries "whsec" [dOk, dOk]
      wEmpty).db.webhook_events).Nodup :=
  ⟨C4_idempotent_insert_unique_rows.1 [("evt_123", rowDone)] "evt_123" rowDone
      (by decide),
    C4_idempotent_insert_unique_rows.2 "whsec" [dOk, dOk] wEmpty
      (by decide)⟩

/-- C5: the derived keys of two calls that differ in the purpose (parts held
fixed) or in the value of any single part (purpose and the other parts held
fixed) differ, because the pre-hash fingerprints — the exact byte strings
handed to SHA-256, per the definitional first conjunct — already differ; equal
keys would therefore require a SHA-256 collision between distinct inputs,
which is the "overwhelming probability" caveat of the claim and is exactly
the collision resistance of the hash, not a property of this code. -/
theorem C5_single_component_change_changes_fingerprint
    (purpose purpose2 : String) (parts : List String) (i : Nat) (x : String) :
    generate_idempotency_key purpose parts =
      sha256hex (strBytes (encodeKey purpose parts)) ∧
    (purpose2 ≠ purpose →
      encodeKey purpose2 parts ≠ encodeKey purpose parts) ∧
    (∀ h : i < parts.length, x ≠ parts.get ⟨i, h⟩ →
      encodeKey purpose (parts.set i x) ≠ encodeKey purpose parts) := by
  refine ⟨rfl, fun hp => ?_, fun h hx => ?_⟩
  · have := joinBar_set_ne (purpose :: parts) 0 purpose2 (by simp)
      (by simpa using hp)
    simpa [encodeKey] using this
  · have := joinBar_set_ne (purpose :: parts) (i + 1) x (by simpa using h)
      (by simpa using hx)
    simpa [encodeKey] using this

/-- Witness for C5: concrete fingerprints at a changed purpose and a changed
single part. -/
theorem C5_witness :
    generate_idempotency_key "checkout.session" ["order_1", "usd"] =
      sha256hex (strBytes (encodeKey "checkout.session" ["order_1", "usd"])) ∧
    encodeKey "refund" ["order_1", "usd"] ≠
      encodeKey "checkout.session" ["order_1", "usd"] ∧
    encodeKey "checkout.session" (["order_1", "usd"].set 0 "order_2") ≠
      encodeKey "checkout.session" ["order_1", "usd"] := by
  obtain ⟨h1, h2, h3⟩ := C5_single_component_change_changes_fingerprint
    "checkout.session" "refund" ["order_1", "usd"] 0 "order_2"
  exact ⟨h1, h2 (by decide), h3 (by decide) (by decide)⟩

/-- C6: whenever the handler successfully acquires the per-event lock (the
verifier accepted the delivery and the lock key was absent), the lock store
is restored before the handler returns on every exit path — normal
completion, the already-`processed` skip, and a raised error alike — so the
`event_id`'s lock entry is gone afterwards. -/
theorem C6_lock_released_on_every_exit
    (secret : String) (d : Delivery) (w : WorldState) (e : Event)
    (hv : d.verify = Except.ok e) (hl : lockKey e.id ∉ w.locks) :
    (stripe_webhook secret d w).2.locks = w.locks ∧
      lockKey e.id ∉ (stripe_webhook secret d w).2.locks := by
  have hmain : (stripe_webhook secret d w).2.locks = w.locks := by
    by_cases hcond : d.sig_header = Option.none ∨ d.sig_header = some "" ∨
      secret = ""
    · unfold stripe_webhook
      rw [if_pos hcond]
    · rw [stripe_webhook_verified w hcond hv]
      by_cases ha : acquireLock w.locks e.id = true
      · rw [if_pos ha]
        cases htxn : runTxn e (sha256hex d.raw) d.now d.faults w.db with
        | ok db' =>
          show releaseLock (lockKey e.id :: w.locks) e.id = w.locks
          rw [releaseLock_cons_self, releaseLock_of_not_mem hl]
        | error u =>
          show releaseLock (lockKey e.id :: w.locks) e.id = w.locks
          rw [releaseLock_cons_self, releaseLock_of_not_mem hl]
      · rw [if_neg ha]
  exact ⟨hmain, hmain ▸ hl⟩

/-- Witness for C6: processing `dOk` from the unlocked empty world leaves the
lock store empty. -/
theorem C6_witness :
    (dOk.verify = Except.ok evC ∧ lockKey evC.id ∉ wEmpty.locks) ∧
    ((stripe_webhook "whsec" dOk wEmpty).2.locks = wEmpty.locks ∧
      lockKey evC.id ∉ (stripe_webhook "whsec" dOk wEmpty).2.locks) :=
  ⟨⟨rfl, by decide⟩,
    C6_lock_released_on_every_exit "whsec" dOk wEmpty evC rfl (by decide)⟩

/-- C7: every persistence failure — an error raised inside the database
transaction after signature verification has succeeded and the lock was
obtained — propagates to the transport as the non-success `serverError`
(FastAPI's 5xx for the uncaught exception, which the provider retries); it is
never converted into a success acknowledgement, and the rolled-back database
is unchanged. -/
theorem C7_persistence_failure_propagates
    (secret : String) (d : Delivery) (w : WorldState) (e : Event)
    (hcond : ¬(d.sig_header = Option.none ∨ d.sig_header = some "" ∨
      secret = ""))
    (hv : d.verify = Except.ok e)
    (ha : acquireLock w.locks e.id = true)
    (htxn : runTxn e (sha256hex d.raw) d.now d.faults w.db =
      Except.error ()) :
    (stripe_webhook secret d w).1 = HttpResult.serverError ∧
      (stripe_webhook secret d w).1 ≠ HttpResult.ok ∧
      (stripe_webhook secret d w).2.db = w.db := by
  rw [stripe_webhook_verified w hcond hv, if_pos ha, htxn]
  exact ⟨rfl, fun h => HttpResult.noConfusion h, rfl⟩

/-- Witness for C7: the delivery `dFault`, whose `SELECT` raises, is answered
with `serverError` and leaves the database untouched. -/
theorem C7_witness :
    (¬(dFault.sig_header = Option.none ∨ dFault.sig_header = some "" ∨
      ("whsec" : String) = "") ∧
      dFault.verify = Except.ok evC ∧
      acquireLock wEmpty.locks evC.id = true ∧
      runTxn evC (sha256hex dFault.raw) dFault.now dFault.faults wEmpty.db =
        Except.error ()) ∧
    ((stripe_webhook "whsec" dFault wEmpty).1 = HttpResult.serverError ∧
      (stripe_webhook "whsec" dFault wEmpty).1 ≠ HttpResult.ok ∧
      (stripe_webhook "whsec" dFault wEmpty).2.db = wEmpty.db) :=
  ⟨⟨by decide, rfl, by decide, rfl⟩,
    C7_persistence_failure_propagates "whsec" dFault wEmpty evC (by decide)
      rfl (by decide) rfl⟩

/-- C8: the idempotency key generator is a pure deterministic function of
`(purpose, parts)` — in this embedding it is a plain function of exactly
those two arguments and nothing else (no randomness or clock is even in
scope), restated by the definitional third conjunct — and its value is
always a 64-character string of lowercase hexadecimal digits. -/
theorem C8_key_deterministic_64_hex (purpose : String) (parts : List String) :
    (generate_idempotency_key purpose parts).length = 64 ∧
    (generate_idempotency_key purpose parts).toList.all isHexChar = true ∧
    generate_idempotency_key purpose parts =
      sha256hex (strBytes (encodeKey purpose parts)) :=
  ⟨sha256hex_length _, bytesToHex_all_hex _, rfl⟩

/-- C9: if the `stripe-signature` header is absent, or the configured webhook
secret is the empty string, the handler returns success immediately — before
signature verification, locking, or any database statement — and the world is
unchanged. -/
theorem C9_missing_header_or_empty_secret_acks_silently
    (secret : String) (d : Delivery) (w : WorldState)
    (h : d.sig_header = Option.none ∨ secret = "") :
    stripe_webhook secret d w = (HttpResult.ok, w) := by
  unfold stripe_webhook
  rw [if_pos (h.elim (fun h1 => Or.inl h1) (fun h2 => Or.inr (Or.inr h2)))]

/-- Witness for C9: a headerless delivery is acknowledged with 200 and the
world stays exactly as it was. -/
theorem C9_witness :
    dNoHeader.sig_header = Option.none ∧
    stripe_webhook "whsec" dNoHeader wEmpty = (HttpResult.ok, wEmpty) :=
  ⟨rfl, C9_missing_header_or_empty_secret_acks_silently "whsec" dNoHeader
    wEmpty (Or.inl rfl)⟩

/-- C10: once a ledger row exists for an `event_id`, no later delivery
modifies its `event_type`, `payload_hash` (or `received_at`) columns: the
duplicate insert is a no-op and the finalization update rewrites only
`status` and `processed_at`, so the stored `payload_hash` always records the
first-seen payload. -/
theorem C10_first_seen_columns_immutable
    (secret : String) (d : Delivery) (w : WorldState) (eid : String)
    (row : LedgerRow) (hrow : lookupKV w.db.webhook_events eid = some row) :
    ∃ row2,
      lookupKV (stripe_webhook secret d w).2.db.webhook_events eid =
        some row2 ∧
      row2.event_type = row.event_type ∧
      row2.payload_hash = row.payload_hash ∧
      row2.received_at = row.received_at := by
  rcases stripe_webhook_db_cases secret d w with hdb | ⟨e, db2, hv, hm, hdb⟩
  · rw [hdb]
    exact ⟨row, hrow, rfl, rfl, rfl⟩
  · rw [hdb]
    have h1 : lookupKV db2.webhook_events eid = some row := by
      rw [dispatch_webhook_events hm]
      exact lookupKV_insert_of_some _ _ hrow
    show ∃ row2,
      lookupKV (setProcessed db2.webhook_events e.id d.now) eid = some row2 ∧ _
    by_cases he : eid = e.id
    · subst he
      rw [lookupKV_setProcessed_self d.now h1]
      exact ⟨_, rfl, rfl, rfl, rfl⟩
    · rw [lookupKV_setProcessed_ne d.now he]
      exact ⟨row, h1, rfl, rfl, rfl⟩

/-- Witness for C10: redelivering on top of the finalized `evt_123` row keeps
its recorded event type, payload hash and arrival time. -/
theorem C10_witness :
    lookupKV wDone.db.webhook_events "evt_123" = some rowDone ∧
    ∃ row2,
      lookupKV (stripe_webhook "whsec" dOk wDone).2.db.webhook_events
        "evt_123" = some row2 ∧
      row2.event_type = rowDone.event_type ∧
      row2.payload_hash = rowDone.payload_hash ∧
      row2.received_at = rowDone.received_at :=
  ⟨by decide,
    C10_first_seen_columns_immutable "whsec" dOk wDone "evt_123" rowDone
      (by decide)⟩

end Spartan
